import Mathlib

/-
Verification of the Little Lemon booking widget core logic (src/App.js).

The embedding translates the non-UI logic of App.js into Lean:
  * generateTimeSlots (App.js lines 38-53), with the ambient calendar day
    that `new Date()` supplies made explicit as a parameter;
  * the booking store, countBookings / availableTables (lines 88-94);
  * validate (lines 96-115), with the ambient clock `now` and the
    Date-parsing of "date T time :00" made explicit;
  * handleSubmit (lines 123-142), with the generated id and createdAt
    strings made explicit parameters;
  * handleCancel (lines 144-147), past its UI confirm() gate.

JavaScript machine integers / Date values are modelled as Nat / Int with
explicit arithmetic; JS Date values are minutes (for the slot generator)
or milliseconds (for validation) on a linear model clock with a fixed
UTC offset, so local-time parsing and `new Date()` live on one axis.
-/

set_option maxHeartbeats 1000000

namespace LittleLemon

/-- Model of JavaScript String.prototype.split with a one-character
separator, working on the string's character list: the list is cut at
every occurrence of the separator, and the separators are dropped. -/
def splitCh (sep : Char) : List Char → List (List Char)
  | [] => [[]]
  | c :: cs =>
    match splitCh sep cs with
    | [] => [[]]
    | p :: ps => if c = sep then [] :: p :: ps else (c :: p) :: ps

/-- Model of JavaScript String.prototype.trim: drop whitespace from both
ends of the string. -/
def jsTrim (s : String) : String :=
  ⟨((s.data.dropWhile Char.isWhitespace).reverse.dropWhile Char.isWhitespace).reverse⟩

/-- Model of JavaScript Number(s) on the strings this app feeds it: the
empty string maps to 0, a nonempty all-digit string to its decimal value,
and anything else to NaN, modelled as none — downstream, a none makes the
constructed Date invalid exactly as NaN does. -/
def jsNumber (l : List Char) : Option Nat :=
  if l.isEmpty then some 0
  else if l.all Char.isDigit then
    some (l.foldl (fun a c => a * 10 + (c.toNat - 48)) 0)
  else none

/-- Parsing of the open/close arguments in generateTimeSlots, App.js
lines 39-40: `s.split(":").map(Number)` destructured as `[h, m]`.
none models the cases where h or m is NaN (or undefined, when the split
has a single part), which make both Dates invalid so the while loop
never runs and the slot list is empty. -/
def parseClock (s : String) : Option (Nat × Nat) :=
  match (splitCh ':' s.data).map jsNumber with
  | some h :: some m :: _ => some (h, m)
  | _ => none

/-- Model of `String(n).padStart(2, "0")` for n < 100 — the only inputs
the slot renderer produces, since getHours < 24 and getMinutes < 60. -/
def pad2 (n : Nat) : List Char :=
  if n < 10 then ['0', Nat.digitChar n]
  else [Nat.digitChar (n / 10), Nat.digitChar (n % 10)]

/-- One emitted slot string (App.js lines 47-49): hours and minutes read
back from the running Date value t (in minutes on the model clock) the
way getHours/getMinutes read them, then zero-padded and joined by ":". -/
def renderSlot (t : Nat) : String :=
  ⟨pad2 (t / 60 % 24) ++ ':' :: pad2 (t % 60)⟩

/-- The while loop of generateTimeSlots (App.js lines 46-51), indexed by
fuel so the recursion is structural: emit cur and advance by step while
cur has not passed close. -/
def slotsFromFuel : Nat → Nat → Nat → Nat → List Nat
  | 0, _, _, _ => []
  | fuel + 1, close, step, cur =>
    if cur ≤ close then cur :: slotsFromFuel fuel close step (cur + step) else []

/-- The loop with enough fuel: with 0 < step the loop runs at most
close + 1 - cur times, so this computes exactly the JS while loop. A
non-positive step, which would loop forever in JS, yields [] here. -/
def slotsFrom (close step cur : Nat) : List Nat :=
  if 0 < step then slotsFromFuel (close + 1 - cur) close step cur else []

/-- Model of generateTimeSlots (App.js lines 38-53). `today` is the
ambient calendar day that the two `new Date()` calls supply (days since
the model epoch, both calls assumed to observe the same day); setHours
places base and end at absolute minutes today * 1440 + 60 * H + M. An
invalid parse (NaN hours or minutes) makes both Date comparisons false,
so the result is empty. -/
def generateTimeSlots (today : Nat) (topen tclose : String) (step : Nat) : List String :=
  match parseClock topen, parseClock tclose with
  | some (oh, om), some (ch, cm) =>
    (slotsFrom (today * 1440 + (ch * 60 + cm)) step (today * 1440 + (oh * 60 + om))).map renderSlot
  | _, _ => []

/-- The clock value (minutes after midnight) a slot string denotes, read
back with the same parser the generator itself uses on open/close. -/
def timeVal (s : String) : Nat :=
  match parseClock s with
  | some (h, m) => h * 60 + m
  | none => 0

example : parseClock "11:00" = some (11, 0) := by decide
example : generateTimeSlots 0 "11:00" "12:30" 30 = ["11:00", "11:30", "12:00", "12:30"] := by decide
example : generateTimeSlots 3 "22:00" "11:00" 30 = [] := by decide
example : generateTimeSlots 0 "11:07" "12:00" 25 = ["11:07", "11:32", "11:57"] := by decide
example : timeVal "12:30" = 750 := by decide

/-- Mock capacity per slot, App.js line 56: MAX_TABLES_PER_SLOT = 6. -/
def MAX_TABLES_PER_SLOT : Int := 6

/-- A stored booking record, with the fields handleSubmit writes
(App.js lines 127-137). partySize is `Number(form.partySize)`; the
embedding restricts the numeric form inputs to integers. -/
structure Booking where
  id : String
  name : String
  phone : String
  email : String
  date : String
  time : String
  partySize : Int
  notes : String
  createdAt : String
deriving DecidableEq

/-- The booking form state (App.js lines 70-78) as handleSubmit reads
it: the text fields plus the numeric party size. -/
structure BookingForm where
  name : String
  phone : String
  email : String
  date : String
  time : String
  partySize : Int
  notes : String
deriving DecidableEq

/-- countBookings (App.js lines 88-90): the number of stored bookings
whose date and time fields equal the given strings exactly. -/
def countBookings (bookings : List Booking) (date time : String) : Nat :=
  (bookings.filter (fun b => b.date == date && b.time == time)).length

/-- availableTables (App.js lines 92-94):
`Math.max(0, MAX_TABLES_PER_SLOT - countBookings(date, time))`. -/
def availableTables (bookings : List Booking) (date time : String) : Int :=
  max 0 (MAX_TABLES_PER_SLOT - countBookings bookings date time)

/-- The digit-stripping in the phone rule (App.js line 99):
`form.phone.replace(/[^0-9]/g, "")` keeps exactly the [0-9] characters. -/
def phoneDigits (s : String) : List Char :=
  s.data.filter Char.isDigit

/-- The email test (App.js line 101), the regex
`/^[^@\s]+@[^@\s]+\.[^@\s]+$/`: the string must consist of a nonempty
run without @ or whitespace, one @, and a remainder that is nonempty,
free of @ and whitespace, and contains a dot that is neither its first
nor its last character (so nonempty runs surround the dot). Splitting
on @ yields exactly two parts precisely when the string has one @. -/
def emailOk (s : String) : Bool :=
  match splitCh '@' s.data with
  | [a, r] =>
    !a.isEmpty && a.all (fun c => !c.isWhitespace) &&
    !r.isEmpty && r.all (fun c => !c.isWhitespace) &&
    (r.drop 1).dropLast.contains '.'
  | _ => false

/-- Days since 1970-01-01 of a civil date, the arithmetic a JS Date
performs when parsing a YYYY-MM-DD date (Howard Hinnant's civil-days
formula; all divisions are on nonnegative values here). -/
def daysFromCivil (y : Int) (m d : Nat) : Int :=
  let y' : Int := if m ≤ 2 then y - 1 else y
  let era : Int := (if 0 ≤ y' then y' else y' - 399) / 400
  let yoe : Int := y' - era * 400
  let doy : Int := (153 * (if 2 < m then (m : Int) - 3 else (m : Int) + 9) + 2) / 5 + d - 1
  let doe : Int := yoe * 365 + yoe / 4 - yoe / 100 + doy
  era * 146097 + doe - 719468

/-- Model of `new Date(form.date + "T" + form.time + ":00").getTime()`
(App.js line 103) on the model clock (fixed UTC offset folded into the
axis): parse the date as Y-M-D and the time as H:MM, and combine into
epoch milliseconds. none models an invalid Date (NaN), whose comparison
on line 105 is false so no error is recorded. -/
def combineDateTime (date time : String) : Option Int :=
  match (splitCh '-' date.data).map jsNumber, parseClock time with
  | [some y, some mo, some da], some (h, mi) =>
    some ((daysFromCivil y mo da * 1440 + (h * 60 + mi : Nat)) * 60000)
  | _, _ => none

/-- The field-keyed validation error object built by validate
(App.js lines 96-115); a none field is an absent key. -/
structure Errors where
  name : Option String
  phone : Option String
  email : Option String
  date : Option String
  partySize : Option String
  time : Option String
deriving DecidableEq

namespace Errors

/-- `Object.keys(e).length === 0` is false (App.js line 114): some
validation rule recorded an error. -/
def hasAny (e : Errors) : Bool :=
  e.name.isSome || e.phone.isSome || e.email.isSome ||
  e.date.isSome || e.partySize.isSome || e.time.isSome

end Errors

/-- validate (App.js lines 96-115) over the booking store, the ambient
clock `now` (epoch milliseconds) and the form. Every rule is evaluated;
each field of the result is some message exactly when its rule fails. -/
def validate (bookings : List Booking) (now : Int) (form : BookingForm) : Errors where
  name := if jsTrim form.name = "" then some "Name is required." else none
  phone :=
    if 7 ≤ (phoneDigits form.phone).length ∧ (phoneDigits form.phone).length ≤ 15 then none
    else some "Enter a valid phone number (7–15 digits)."
  email := if emailOk form.email then none else some "Enter a valid email."
  date :=
    match combineDateTime form.date form.time with
    | some ts => if ts < now - 5 * 60 * 1000 then some "Please choose a future date/time." else none
    | none => none
  partySize :=
    if 1 ≤ form.partySize ∧ form.partySize ≤ 12 then none
    else some "Party size must be between 1 and 12."
  time :=
    if availableTables bookings form.date form.time ≤ 0 then
      some "No tables available for the chosen slot."
    else none

/-- The newBooking object literal (App.js lines 127-137), with the
generated id (`Date.now().toString(36) + Math.random()...`) and the
`new Date().toISOString()` timestamp passed in explicitly. Note the
stored phone is `form.phone.trim()`, not the digit-stripped form. -/
def mkNewBooking (freshId createdAt : String) (form : BookingForm) : Booking where
  id := freshId
  name := jsTrim form.name
  phone := jsTrim form.phone
  email := jsTrim form.email
  date := form.date
  time := form.time
  partySize := form.partySize
  notes := jsTrim form.notes
  createdAt := createdAt

/-- The state handleSubmit leaves behind: the bookings store, the errors
set by validate, and the success banner's booking (none on failure). -/
structure SubmitResult where
  bookings : List Booking
  errors : Errors
  success : Option Booking
deriving DecidableEq

/-- handleSubmit (App.js lines 123-142): run validate; if any rule
failed, the store is untouched and success stays null; otherwise the
new booking is prepended to the store and returned for confirmation. -/
def handleSubmit (bookings : List Booking) (now : Int) (freshId createdAt : String)
    (form : BookingForm) : SubmitResult :=
  let e := validate bookings now form
  if e.hasAny then
    { bookings := bookings, errors := e, success := none }
  else
    let nb := mkNewBooking freshId createdAt form
    { bookings := nb :: bookings, errors := e, success := some nb }

/-- handleCancel (App.js lines 144-147), past its UI confirm() gate:
`bookings.filter(x => x.id !== id)`. -/
def handleCancel (bookings : List Booking) (id : String) : List Booking :=
  bookings.filter (fun x => x.id != id)

/-- The stores reachable from the empty initial store by any sequence of
submit and cancel operations, with arbitrary ambient clock, generated
id/timestamp strings and form contents at each submit. -/
inductive Reachable : List Booking → Prop
  | nil : Reachable []
  | submit (s : List Booking) (now : Int) (freshId createdAt : String) (form : BookingForm) :
      Reachable s → Reachable (handleSubmit s now freshId createdAt form).bookings
  | cancel (s : List Booking) (id : String) :
      Reachable s → Reachable (handleCancel s id)

/-! Helper lemmas about availability and validation. -/

theorem availableTables_nonpos_iff (s : List Booking) (d t : String) :
    availableTables s d t ≤ 0 ↔ 6 ≤ countBookings s d t := by
  unfold availableTables MAX_TABLES_PER_SLOT
  rw [max_le_iff]
  omega

theorem validate_time_eq (s : List Booking) (now : Int) (f : BookingForm) :
    (validate s now f).time =
      if availableTables s f.date f.time ≤ 0 then
        some "No tables available for the chosen slot."
      else none := rfl

theorem validate_time_none_count (s : List Booking) (now : Int) (f : BookingForm)
    (h : (validate s now f).time = none) : countBookings s f.date f.time ≤ 5 := by
  by_contra hc
  rw [validate_time_eq, if_pos ((availableTables_nonpos_iff s f.date f.time).mpr (by omega))] at h
  exact Option.some_ne_none _ h

theorem hasAny_false_time_none (e : Errors) (h : e.hasAny = false) : e.time = none := by
  unfold Errors.hasAny at h
  cases ht : e.time with
  | none => rfl
  | some v => rw [ht] at h; simp at h

/-- C1: availableTables is max(0, CAPACITY − n) with CAPACITY = 6 and n
the exact-string-equality count of bookings at (date, time); the result
is never negative, and it is zero for every store where n reaches or
exceeds the capacity. -/
theorem availableTables_max_zero_spec (s : List Booking) (date time : String) :
    MAX_TABLES_PER_SLOT = 6 ∧
    availableTables s date time = max 0 (6 - (countBookings s date time : Int)) ∧
    countBookings s date time =
      (s.filter (fun b => b.date == date && b.time == time)).length ∧
    0 ≤ availableTables s date time ∧
    (6 ≤ countBookings s date time → availableTables s date time = 0) := by
  refine ⟨rfl, rfl, rfl, le_max_left 0 _, fun h => ?_⟩
  have := (availableTables_nonpos_iff s date time).mpr h
  have := le_max_left 0 (MAX_TABLES_PER_SLOT - (countBookings s date time : Int))
  unfold availableTables at *
  omega

/-- Witness for C1 at a store holding seven bookings in one slot: the
capacity bound is exceeded, yet the availability is exactly zero. -/
theorem availableTables_max_zero_spec_witness :
    6 ≤ countBookings
        (List.replicate 7
          { id := "x", name := "n", phone := "1234567", email := "n@a.b",
            date := "2025-01-01", time := "18:00", partySize := 2, notes := "",
            createdAt := "t" })
        "2025-01-01" "18:00" ∧
    availableTables
        (List.replicate 7
          { id := "x", name := "n", phone := "1234567", email := "n@a.b",
            date := "2025-01-01", time := "18:00", partySize := 2, notes := "",
            createdAt := "t" })
        "2025-01-01" "18:00" = 0 :=
  ⟨by decide, (availableTables_max_zero_spec _ "2025-01-01" "18:00").2.2.2.2 (by decide)⟩

/-- C3: whenever validation fails, handleSubmit leaves the store exactly
as it was and produces no booking; in particular a full slot (six or
more bookings at the candidate's date and time) fails with the SlotFull
message and the store is unchanged. -/
theorem handleSubmit_error_atomic (s : List Booking) (now : Int)
    (freshId createdAt : String) (f : BookingForm) :
    ((validate s now f).hasAny = true →
      handleSubmit s now freshId createdAt f =
        { bookings := s, errors := validate s now f, success := none }) ∧
    (6 ≤ countBookings s f.date f.time →
      (validate s now f).time = some "No tables available for the chosen slot." ∧
      (handleSubmit s now freshId createdAt f).bookings = s ∧
      (handleSubmit s now freshId createdAt f).success = none) := by
  have hfail : (validate s now f).hasAny = true →
      handleSubmit s now freshId createdAt f =
        { bookings := s, errors := validate s now f, success := none } := by
    intro h
    simp [handleSubmit, h]
  refine ⟨hfail, fun h => ?_⟩
  have htime : (validate s now f).time = some "No tables available for the chosen slot." := by
    rw [validate_time_eq, if_pos ((availableTables_nonpos_iff s f.date f.time).mpr h)]
  have hany : (validate s now f).hasAny = true := by
    unfold Errors.hasAny
    rw [htime]
    simp
  rw [hfail hany]
  exact ⟨htime, rfl, rfl⟩

/-- Witness for C3: a slot already holding six bookings rejects a
seventh candidate with the SlotFull message and an unchanged store. -/
theorem handleSubmit_error_atomic_witness :
    6 ≤ countBookings
        (List.replicate 6
          { id := "x", name := "n", phone := "1234567", email := "n@a.b",
            date := "2025-01-01", time := "18:00", partySize := 2, notes := "",
            createdAt := "t" })
        "2025-01-01" "18:00" ∧
    ((validate
        (List.replicate 6
          { id := "x", name := "n", phone := "1234567", email := "n@a.b",
            date := "2025-01-01", time := "18:00", partySize := 2, notes := "",
            createdAt := "t" }) 0
        { name := "Ana", phone := "123-456-7890", email := "ana@x.com",
          date := "2025-01-01", time := "18:00", partySize := 3, notes := "" }).time =
        some "No tables available for the chosen slot." ∧
      (handleSubmit
        (List.replicate 6
          { id := "x", name := "n", phone := "1234567", email := "n@a.b",
            date := "2025-01-01", time := "18:00", partySize := 2, notes := "",
            createdAt := "t" }) 0 "id1" "t0"
        { name := "Ana", phone := "123-456-7890", email := "ana@x.com",
          date := "2025-01-01", time := "18:00", partySize := 3, notes := "" }).bookings =
        List.replicate 6
          { id := "x", name := "n", phone := "1234567", email := "n@a.b",
            date := "2025-01-01", time := "18:00", partySize := 2, notes := "",
            createdAt := "t" } ∧
      (handleSubmit
        (List.replicate 6
          { id := "x", name := "n", phone := "1234567", email := "n@a.b",
            date := "2025-01-01", time := "18:00", partySize := 2, notes := "",
            createdAt := "t" }) 0 "id1" "t0"
        { name := "Ana", phone := "123-456-7890", email := "ana@x.com",
          date := "2025-01-01", time := "18:00", partySize := 3, notes := "" }).success =
        none) :=
  ⟨by decide, (handleSubmit_error_atomic _ 0 "id1" "t0" _).2 (by decide)⟩

/-- C10: handleCancel removes exactly the entries whose id matches,
keeps every other entry in its original order, is a no-op when the id is
absent, and is idempotent. -/
theorem handleCancel_filter_spec (s : List Booking) (id : String) :
    (∀ b ∈ handleCancel s id, b.id ≠ id) ∧
    (handleCancel s id).Sublist s ∧
    (∀ b ∈ s, b.id ≠ id → b ∈ handleCancel s id) ∧
    ((∀ b ∈ s, b.id ≠ id) → handleCancel s id = s) ∧
    handleCancel (handleCancel s id) id = handleCancel s id := by
  unfold handleCancel
  refine ⟨?_, List.filter_sublist s, ?_, ?_, ?_⟩
  · intro b hb
    have := (List.mem_filter.mp hb).2
    simpa using this
  · intro b hb hne
    exact List.mem_filter.mpr ⟨hb, by simpa using hne⟩
  · intro h
    exact List.filter_eq_self.mpr fun b hb => by simpa using h b hb
  · exact List.filter_eq_self.mpr fun b hb => (List.mem_filter.mp hb).2

/-- Witness for C10: cancelling an id that is absent from a concrete
two-entry store leaves the store unchanged, and cancelling an id that is
present is idempotent. -/
theorem handleCancel_filter_spec_witness :
    (∀ b ∈ [({ id := "a", name := "n", phone := "1234567", email := "n@a.b",
               date := "2025-01-01", time := "18:00", partySize := 2, notes := "",
               createdAt := "t" } : Booking),
            { id := "b", name := "m", phone := "7654321", email := "m@a.b",
              date := "2025-01-02", time := "19:00", partySize := 4, notes := "",
              createdAt := "t" }], b.id ≠ "zz") ∧
    handleCancel
        [{ id := "a", name := "n", phone := "1234567", email := "n@a.b",
           date := "2025-01-01", time := "18:00", partySize := 2, notes := "",
           createdAt := "t" },
         { id := "b", name := "m", phone := "7654321", email := "m@a.b",
           date := "2025-01-02", time := "19:00", partySize := 4, notes := "",
           createdAt := "t" }] "zz" =
      [{ id := "a", name := "n", phone := "1234567", email := "n@a.b",
         date := "2025-01-01", time := "18:00", partySize := 2, notes := "",
         createdAt := "t" },
       { id := "b", name := "m", phone := "7654321", email := "m@a.b",
         date := "2025-01-02", time := "19:00", partySize := 4, notes := "",
         createdAt := "t" }] :=
  ⟨by decide, (handleCancel_filter_spec _ "zz").2.2.2.1 (by decide)⟩

theorem isSome_false_eq_none {α : Type} {o : Option α} (h : o.isSome = false) : o = none := by
  cases o with
  | none => rfl
  | some v => simp at h

theorem hasAny_false_fields (e : Errors) (h : e.hasAny = false) :
    e.name = none ∧ e.phone = none ∧ e.email = none ∧
    e.date = none ∧ e.partySize = none ∧ e.time = none := by
  simp only [Errors.hasAny, Bool.or_eq_false_iff] at h
  obtain ⟨⟨⟨⟨⟨h1, h2⟩, h3⟩, h4⟩, h5⟩, h6⟩ := h
  exact ⟨isSome_false_eq_none h1, isSome_false_eq_none h2, isSome_false_eq_none h3,
    isSome_false_eq_none h4, isSome_false_eq_none h5, isSome_false_eq_none h6⟩

theorem countBookings_cons (b : Booking) (s : List Booking) (d t : String) :
    countBookings (b :: s) d t =
      (if b.date == d && b.time == t then 1 else 0) + countBookings s d t := by
  unfold countBookings
  rw [List.filter_cons]
  cases hb : (b.date == d && b.time == t) <;> simp [hb, Nat.add_comm]

/-- C2: every store reachable from the empty store by submit and cancel
operations holds at most 6 bookings per (date, time) slot — a
successful submit requires positive availability and cancel only
removes entries, so the write-time capacity check preserves the bound. -/
theorem reachable_capacity_invariant (s : List Booking) (h : Reachable s)
    (date time : String) : countBookings s date time ≤ 6 := by
  induction h with
  | nil => simp [countBookings]
  | submit s' now freshId createdAt form hr ih =>
    cases he : (validate s' now form).hasAny with
    | true => simpa [handleSubmit, he] using ih
    | false =>
      have htn : (validate s' now form).time = none := hasAny_false_time_none _ he
      have hn : countBookings s' form.date form.time ≤ 5 := validate_time_none_count _ _ _ htn
      have hb : (handleSubmit s' now freshId createdAt form).bookings =
          mkNewBooking freshId createdAt form :: s' := by simp [handleSubmit, he]
      rw [hb, countBookings_cons]
      cases hm : ((mkNewBooking freshId createdAt form).date == date &&
          (mkNewBooking freshId createdAt form).time == time) with
      | false => simpa using ih
      | true =>
        have hd : form.date = date ∧ form.time = time := by
          simpa [mkNewBooking] using hm
        rw [if_pos rfl] at *
        rcases hd with ⟨hd1, hd2⟩
        rw [← hd1, ← hd2]
        omega
  | cancel s' id hr ih =>
    have hle : countBookings (handleCancel s' id) date time ≤ countBookings s' date time := by
      unfold countBookings handleCancel
      exact List.Sublist.length_le (List.Sublist.filter _ (List.filter_sublist s'))
    omega

/-- Witness for C2: a store reached by one successful submit from the
empty store satisfies the per-slot capacity bound. -/
theorem reachable_capacity_invariant_witness :
    countBookings
      (handleSubmit [] 0 "id1" "t0"
        { name := "Ana", phone := "123-456-7890", email := "ana@x.com",
          date := "2025-01-01", time := "18:00", partySize := 3, notes := "" }).bookings
      "2025-01-01" "18:00" ≤ 6 :=
  reachable_capacity_invariant _
    (Reachable.submit [] 0 "id1" "t0" _ Reachable.nil) "2025-01-01" "18:00"

/-- C4: a successful submit prepends exactly one new booking built from
the form, leaves every pre-existing entry unchanged and in order, grows
the store by one, and decreases the slot's availability by exactly one. -/
theorem handleSubmit_success_prepends (s : List Booking) (now : Int)
    (freshId createdAt : String) (f : BookingForm)
    (h : (validate s now f).hasAny = false) :
    handleSubmit s now freshId createdAt f =
      { bookings := mkNewBooking freshId createdAt f :: s,
        errors := validate s now f,
        success := some (mkNewBooking freshId createdAt f) } ∧
    (handleSubmit s now freshId createdAt f).bookings.length = s.length + 1 ∧
    availableTables (handleSubmit s now freshId createdAt f).bookings f.date f.time =
      availableTables s f.date f.time - 1 := by
  have hmain : handleSubmit s now freshId createdAt f =
      { bookings := mkNewBooking freshId createdAt f :: s,
        errors := validate s now f,
        success := some (mkNewBooking freshId createdAt f) } := by
    simp [handleSubmit, h]
  refine ⟨hmain, by rw [hmain]; simp, ?_⟩
  rw [hmain]
  have hn : countBookings s f.date f.time ≤ 5 :=
    validate_time_none_count _ _ _ (hasAny_false_time_none _ h)
  have hc : countBookings (mkNewBooking freshId createdAt f :: s) f.date f.time =
      1 + countBookings s f.date f.time := by
    rw [countBookings_cons]
    simp [mkNewBooking]
  show availableTables (mkNewBooking freshId createdAt f :: s) f.date f.time = _
  unfold availableTables MAX_TABLES_PER_SLOT
  rw [hc]
  have hn' : (countBookings s f.date f.time : Int) ≤ 5 := by exact_mod_cast hn
  push_cast
  rw [max_eq_right (by omega), max_eq_right (by omega)]
  ring

/-- Witness for C4: a concrete valid submission to the empty store grows
the store to one entry and decrements availability for its slot. -/
theorem handleSubmit_success_prepends_witness :
    (validate [] 0
        { name := "Ana", phone := "123-456-7890", email := "ana@x.com",
          date := "2025-01-01", time := "18:00", partySize := 3, notes := "" }).hasAny = false ∧
    ((handleSubmit [] 0 "id1" "t0"
        { name := "Ana", phone := "123-456-7890", email := "ana@x.com",
          date := "2025-01-01", time := "18:00", partySize := 3, notes := "" }).bookings.length =
      ([] : List Booking).length + 1 ∧
    availableTables
        (handleSubmit [] 0 "id1" "t0"
          { name := "Ana", phone := "123-456-7890", email := "ana@x.com",
            date := "2025-01-01", time := "18:00", partySize := 3, notes := "" }).bookings
        "2025-01-01" "18:00" =
      availableTables [] "2025-01-01" "18:00" - 1) :=
  ⟨by decide, ((handleSubmit_success_prepends [] 0 "id1" "t0" _ (by decide)).2.1),
    ((handleSubmit_success_prepends [] 0 "id1" "t0" _ (by decide)).2.2)⟩

theorem validate_name_eq (s : List Booking) (now : Int) (f : BookingForm) :
    (validate s now f).name =
      if jsTrim f.name = "" then some "Name is required." else none := rfl

theorem validate_phone_eq (s : List Booking) (now : Int) (f : BookingForm) :
    (validate s now f).phone =
      if 7 ≤ (phoneDigits f.phone).length ∧ (phoneDigits f.phone).length ≤ 15 then none
      else some "Enter a valid phone number (7–15 digits)." := rfl

theorem validate_email_eq (s : List Booking) (now : Int) (f : BookingForm) :
    (validate s now f).email =
      if emailOk f.email then none else some "Enter a valid email." := rfl

theorem validate_date_eq (s : List Booking) (now : Int) (f : BookingForm) :
    (validate s now f).date =
      match combineDateTime f.date f.time with
      | some ts =>
        if ts < now - 5 * 60 * 1000 then some "Please choose a future date/time." else none
      | none => none := rfl

theorem validate_partySize_eq (s : List Booking) (now : Int) (f : BookingForm) :
    (validate s now f).partySize =
      if 1 ≤ f.partySize ∧ f.partySize ≤ 12 then none
      else some "Party size must be between 1 and 12." := rfl

/-- C5: validate evaluates all six rules and its error object holds some
message exactly at the violated fields; a candidate failing only the
email pattern yields exactly the single InvalidEmail entry. -/
theorem validate_exact_error_map (s : List Booking) (now : Int) (f : BookingForm) :
    ((validate s now f).name.isSome ↔ jsTrim f.name = "") ∧
    ((validate s now f).phone.isSome ↔
      ¬(7 ≤ (phoneDigits f.phone).length ∧ (phoneDigits f.phone).length ≤ 15)) ∧
    ((validate s now f).email.isSome ↔ emailOk f.email = false) ∧
    ((validate s now f).date.isSome ↔
      ∃ ts, combineDateTime f.date f.time = some ts ∧ ts < now - 5 * 60 * 1000) ∧
    ((validate s now f).partySize.isSome ↔ ¬(1 ≤ f.partySize ∧ f.partySize ≤ 12)) ∧
    ((validate s now f).time.isSome ↔ availableTables s f.date f.time ≤ 0) ∧
    (emailOk f.email = false → jsTrim f.name ≠ "" →
      7 ≤ (phoneDigits f.phone).length → (phoneDigits f.phone).length ≤ 15 →
      (∀ ts, combineDateTime f.date f.time = some ts → now - 5 * 60 * 1000 ≤ ts) →
      1 ≤ f.partySize → f.partySize ≤ 12 →
      0 < availableTables s f.date f.time →
      validate s now f =
        { name := none, phone := none, email := some "Enter a valid email.",
          date := none, partySize := none, time := none }) := by
  refine ⟨?_, ?_, ?_, ?_, ?_, ?_, ?_⟩
  · rw [validate_name_eq]; split_ifs with h <;> simp [h]
  · rw [validate_phone_eq]; split_ifs with h <;> simp [h]
  · rw [validate_email_eq]
    cases he : emailOk f.email <;> simp [he]
  · cases hc : combineDateTime f.date f.time with
    | none => simp [validate_date_eq, hc]
    | some ts =>
      simp only [validate_date_eq, hc]
      split_ifs with h
      · exact iff_of_true rfl ⟨ts, rfl, h⟩
      · refine iff_of_false (by simp) ?_
        rintro ⟨ts1, hts1, hlt⟩
        cases Option.some.inj hts1
        exact h hlt
  · rw [validate_partySize_eq]; split_ifs with h <;> simp [h]
  · rw [validate_time_eq]; split_ifs with h <;> simp [h]
  · intro h1 h2 h3 h4 h5 h6 h7 h8
    have en : (validate s now f).name = none := by rw [validate_name_eq, if_neg h2]
    have ep : (validate s now f).phone = none := by rw [validate_phone_eq, if_pos ⟨h3, h4⟩]
    have ee : (validate s now f).email = some "Enter a valid email." := by
      rw [validate_email_eq, h1]
      simp
    have ed : (validate s now f).date = none := by
      rw [validate_date_eq]
      cases hc : combineDateTime f.date f.time with
      | none => rfl
      | some ts =>
        have := h5 ts hc
        simp only []
        rw [if_neg (by omega)]
    have eps : (validate s now f).partySize = none := by
      rw [validate_partySize_eq, if_pos ⟨h6, h7⟩]
    have et : (validate s now f).time = none := by
      rw [validate_time_eq, if_neg (by omega)]
    have heta : validate s now f =
        ⟨(validate s now f).name, (validate s now f).phone, (validate s now f).email,
         (validate s now f).date, (validate s now f).partySize, (validate s now f).time⟩ := rfl
    rw [heta, en, ep, ee, ed, eps, et]

/-- Witness for C5: a candidate with email "not-an-email" and otherwise
valid fields produces exactly the single email error. -/
theorem validate_exact_error_map_witness :
    emailOk "not-an-email" = false ∧
    validate [] 0
        { name := "Ana", phone := "123-456-7890", email := "not-an-email",
          date := "2025-01-01", time := "18:00", partySize := 3, notes := "" } =
      { name := none, phone := none, email := some "Enter a valid email.",
        date := none, partySize := none, time := none } :=
  ⟨by decide,
    (validate_exact_error_map [] 0
        { name := "Ana", phone := "123-456-7890", email := "not-an-email",
          date := "2025-01-01", time := "18:00", partySize := 3, notes := "" }).2.2.2.2.2.2
      (by decide) (by decide) (by decide) (by decide)
      (by
        intro ts hts
        rw [show combineDateTime "2025-01-01" "18:00" = some 1735754400000 from by decide] at hts
        have h9 := Option.some.inj hts
        omega)
      (by decide) (by decide) (by decide)⟩

/-- C6: the PastDateTime error is recorded exactly when the combined
date/time timestamp is earlier than the submission clock minus the
5-minute grace window: a slot 10 minutes in the past is rejected, one
inside the grace window is not. -/
theorem validate_past_grace_window (s : List Booking) (now : Int) (f : BookingForm)
    (ts : Int) (hts : combineDateTime f.date f.time = some ts) :
    ((validate s now f).date.isSome ↔ ts < now - 5 * 60 * 1000) ∧
    (ts = now - 10 * 60 * 1000 →
      (validate s now f).date = some "Please choose a future date/time.") ∧
    (now - 5 * 60 * 1000 ≤ ts → (validate s now f).date = none) := by
  have hd : (validate s now f).date =
      if ts < now - 5 * 60 * 1000 then some "Please choose a future date/time." else none := by
    rw [validate_date_eq, hts]
  rw [hd]
  refine ⟨?_, ?_, ?_⟩
  · split_ifs with h
    · exact iff_of_true rfl h
    · exact iff_of_false (by simp) h
  · intro h
    rw [if_pos (by omega)]
  · intro h
    rw [if_neg (by omega)]

/-- Witness for C6: with the clock 10 minutes after the concrete slot
2025-01-01 18:00, validate records the past-date error; with the clock 4
minutes after it (inside the grace window), it does not. -/
theorem validate_past_grace_window_witness :
    combineDateTime "2025-01-01" "18:00" = some 1735754400000 ∧
    (validate [] (1735754400000 + 10 * 60 * 1000)
        { name := "Ana", phone := "123-456-7890", email := "ana@x.com",
          date := "2025-01-01", time := "18:00", partySize := 3, notes := "" }).date =
      some "Please choose a future date/time." ∧
    (validate [] (1735754400000 + 4 * 60 * 1000)
        { name := "Ana", phone := "123-456-7890", email := "ana@x.com",
          date := "2025-01-01", time := "18:00", partySize := 3, notes := "" }).date = none :=
  ⟨by decide,
    (validate_past_grace_window [] (1735754400000 + 10 * 60 * 1000) _ 1735754400000
        (by decide)).2.1 (by omega),
    (validate_past_grace_window [] (1735754400000 + 4 * 60 * 1000) _ 1735754400000
        (by decide)).2.2 (by omega)⟩

/-- Counterexample to C7: a successful submit of the phone
"123-456-7890" (which passes validation with 10 digits) stores the
trimmed raw string, which still contains dashes — not a normalized
digit string. -/
theorem storedPhone_not_normalized_counterexample :
    (handleSubmit [] 0 "id1" "t0"
        { name := "Ana", phone := "123-456-7890", email := "ana@x.com",
          date := "2025-01-01", time := "18:00", partySize := 3, notes := "" }).success.isSome =
      true ∧
    (handleSubmit [] 0 "id1" "t0"
        { name := "Ana", phone := "123-456-7890", email := "ana@x.com",
          date := "2025-01-01", time := "18:00", partySize := 3, notes := "" }).bookings.map
        Booking.phone = ["123-456-7890"] ∧
    ("123-456-7890".data.all Char.isDigit) = false := by
  refine ⟨by decide, by decide, by decide⟩

/-- C7 as amended: a booking created by a successful submit stores the
candidate phone trimmed of surrounding whitespace (the raw input, not
the digit-stripped form), and validation guarantees the candidate phone
contains between 7 and 15 digit characters. -/
theorem storedPhone_trimmed_raw (s : List Booking) (now : Int)
    (freshId createdAt : String) (f : BookingForm)
    (h : (validate s now f).hasAny = false) (b : Booking)
    (hb : (handleSubmit s now freshId createdAt f).success = some b) :
    b.phone = jsTrim f.phone ∧
    7 ≤ (phoneDigits f.phone).length ∧ (phoneDigits f.phone).length ≤ 15 := by
  have hsucc : (handleSubmit s now freshId createdAt f).success =
      some (mkNewBooking freshId createdAt f) := by
    simp [handleSubmit, h]
  rw [hsucc] at hb
  have hbe : mkNewBooking freshId createdAt f = b := Option.some.inj hb
  have hpn : (validate s now f).phone = none := (hasAny_false_fields _ h).2.1
  have hlen : 7 ≤ (phoneDigits f.phone).length ∧ (phoneDigits f.phone).length ≤ 15 := by
    by_contra hc
    rw [validate_phone_eq, if_neg hc] at hpn
    exact Option.some_ne_none _ hpn
  exact ⟨by rw [← hbe]; rfl, hlen.1, hlen.2⟩

/-- Witness for the amended C7: the concrete successful submission
stores "123-456-7890" verbatim (its own trim), whose digit count is 10. -/
theorem storedPhone_trimmed_raw_witness :
    (validate [] 0
        { name := "Ana", phone := "123-456-7890", email := "ana@x.com",
          date := "2025-01-01", time := "18:00", partySize := 3, notes := "" }).hasAny = false ∧
    ((mkNewBooking "id1" "t0"
        { name := "Ana", phone := "123-456-7890", email := "ana@x.com",
          date := "2025-01-01", time := "18:00", partySize := 3, notes := "" }).phone =
      jsTrim "123-456-7890" ∧
    7 ≤ (phoneDigits "123-456-7890").length ∧ (phoneDigits "123-456-7890").length ≤ 15) :=
  ⟨by decide,
    storedPhone_trimmed_raw [] 0 "id1" "t0"
      { name := "Ana", phone := "123-456-7890", email := "ana@x.com",
        date := "2025-01-01", time := "18:00", partySize := 3, notes := "" }
      (by decide)
      (mkNewBooking "id1" "t0"
        { name := "Ana", phone := "123-456-7890", email := "ana@x.com",
          date := "2025-01-01", time := "18:00", partySize := 3, notes := "" })
      (by decide)⟩

/-! Helper lemmas for the timeslot generator: characters, the colon
splitter, the render/parse round trip, and the loop. -/

theorem digitChar_ne_colon : ∀ d : Nat, d < 10 → Nat.digitChar d ≠ ':' := by decide

theorem digitChar_isDigit : ∀ d : Nat, d < 10 → (Nat.digitChar d).isDigit = true := by decide

theorem digitChar_toNat : ∀ d : Nat, d < 10 → (Nat.digitChar d).toNat - 48 = d := by decide

theorem pad2_ne_colon (n : Nat) (hn : n < 100) : ':' ∉ pad2 n := by
  unfold pad2
  split_ifs with h
  · intro hm
    simp only [List.mem_cons, List.not_mem_nil, or_false] at hm
    rcases hm with hm | hm
    · exact absurd hm (by decide)
    · exact digitChar_ne_colon n h hm.symm
  · intro hm
    simp only [List.mem_cons, List.not_mem_nil, or_false] at hm
    rcases hm with hm | hm
    · exact digitChar_ne_colon (n / 10) (by omega) hm.symm
    · exact digitChar_ne_colon (n % 10) (by omega) hm.symm

theorem pad2_val (n : Nat) (hn : n < 100) : jsNumber (pad2 n) = some n := by
  have h48 : '0'.toNat - 48 = 0 := by decide
  unfold pad2
  split_ifs with h
  · unfold jsNumber
    rw [if_neg (by simp), if_pos (by simp [digitChar_isDigit n h])]
    simp only [List.foldl]
    rw [h48, digitChar_toNat n h]
    congr 1
    omega
  · have h1 : n / 10 < 10 := by omega
    have h2 : n % 10 < 10 := by omega
    unfold jsNumber
    rw [if_neg (by simp), if_pos (by simp [digitChar_isDigit _ h1, digitChar_isDigit _ h2])]
    simp only [List.foldl]
    rw [digitChar_toNat _ h1, digitChar_toNat _ h2]
    congr 1
    omega

theorem splitCh_cons (c x : Char) (xs : List Char) :
    splitCh c (x :: xs) =
      match splitCh c xs with
      | [] => [[]]
      | p :: ps => if x = c then [] :: p :: ps else (x :: p) :: ps := rfl

theorem splitCh_ne_nil (c : Char) (l : List Char) : splitCh c l ≠ [] := by
  cases l with
  | nil => simp [splitCh]
  | cons x xs =>
    rw [splitCh_cons]
    cases h : splitCh c xs with
    | nil => simp
    | cons p ps => split_ifs <;> simp

theorem splitCh_not_mem {c : Char} {a : List Char} (h : c ∉ a) : splitCh c a = [a] := by
  induction a with
  | nil => rfl
  | cons x xs ih =>
    have hx : x ≠ c := fun he => h (he ▸ List.mem_cons_self x xs)
    have hxs : c ∉ xs := fun hm => h (List.mem_cons_of_mem x hm)
    rw [splitCh_cons, ih hxs]
    simp [hx]

theorem splitCh_append {c : Char} {a : List Char} (b : List Char) (h : c ∉ a) :
    splitCh c (a ++ c :: b) = a :: splitCh c b := by
  induction a with
  | nil =>
    obtain ⟨p, ps, hps⟩ := List.exists_cons_of_ne_nil (splitCh_ne_nil c b)
    show splitCh c (c :: b) = [] :: splitCh c b
    rw [splitCh_cons, hps]
    simp [← hps]
  | cons x xs ih =>
    have hx : x ≠ c := fun he => h (he ▸ List.mem_cons_self x xs)
    have hxs : c ∉ xs := fun hm => h (List.mem_cons_of_mem x hm)
    show splitCh c (x :: (xs ++ c :: b)) = (x :: xs) :: splitCh c b
    rw [splitCh_cons, ih hxs]
    simp [hx]

theorem parseClock_renderSlot (t : Nat) (ht : t < 1440) :
    parseClock (renderSlot t) = some (t / 60, t % 60) := by
  have h1 : t / 60 < 24 := by omega
  have h2 : t % 60 < 60 := by omega
  have hmod : t / 60 % 24 = t / 60 := Nat.mod_eq_of_lt h1
  unfold renderSlot parseClock
  show (match (splitCh ':' (pad2 (t / 60 % 24) ++ ':' :: pad2 (t % 60))).map jsNumber with
    | some h :: some m :: _ => some (h, m)
    | _ => none) = some (t / 60, t % 60)
  rw [hmod, splitCh_append _ (pad2_ne_colon _ (by omega)),
    splitCh_not_mem (pad2_ne_colon _ (by omega))]
  simp [pad2_val (t / 60) (by omega), pad2_val (t % 60) (by omega)]

theorem timeVal_renderSlot (t : Nat) (ht : t < 1440) : timeVal (renderSlot t) = t := by
  unfold timeVal
  rw [parseClock_renderSlot t ht]
  show t / 60 * 60 + t % 60 = t
  omega

theorem slotsFromFuel_mem {fuel close step cur t : Nat}
    (h : t ∈ slotsFromFuel fuel close step cur) : cur ≤ t ∧ t ≤ close := by
  induction fuel generalizing cur with
  | zero => cases h
  | succ f ih =>
    unfold slotsFromFuel at h
    split_ifs at h with hc
    · rw [List.mem_cons] at h
      rcases h with h | h
      · omega
      · have := ih h
        omega
    · cases h

theorem slotsFromFuel_pairwise (fuel close step cur : Nat) (hs : 0 < step) :
    List.Pairwise (· < ·) (slotsFromFuel fuel close step cur) := by
  induction fuel generalizing cur with
  | zero => exact List.Pairwise.nil
  | succ f ih =>
    unfold slotsFromFuel
    split_ifs with hc
    · refine List.Pairwise.cons (fun t ht => ?_) (ih (cur + step))
      have := slotsFromFuel_mem ht
      omega
    · exact List.Pairwise.nil

theorem slotsFromFuel_head (fuel close step cur : Nat) (hf : 0 < fuel) (hc : cur ≤ close) :
    (slotsFromFuel fuel close step cur).head? = some cur := by
  cases fuel with
  | zero => omega
  | succ f =>
    unfold slotsFromFuel
    rw [if_pos hc]
    rfl

theorem slotsFromFuel_close_mem (fuel : Nat) {close step cur : Nat} (hs : 0 < step)
    (hc : cur ≤ close) (hf : close + 1 - cur ≤ fuel) (hd : step ∣ close - cur) :
    close ∈ slotsFromFuel fuel close step cur := by
  induction fuel generalizing cur with
  | zero => omega
  | succ f ih =>
    unfold slotsFromFuel
    rw [if_pos hc]
    rcases Nat.eq_or_lt_of_le hc with he | hlt
    · rw [he]
      exact List.mem_cons_self _ _
    · have hstep : step ≤ close - cur := Nat.le_of_dvd (by omega) hd
      refine List.mem_cons_of_mem _ (ih ?_ ?_ ?_)
      · omega
      · omega
      · have : close - (cur + step) = close - cur - step := by omega
        rw [this]
        exact Nat.dvd_sub' hd dvd_rfl

theorem slotsFromFuel_shift (D fuel close step cur : Nat) :
    slotsFromFuel fuel (D + close) step (D + cur) =
      (slotsFromFuel fuel close step cur).map (D + ·) := by
  induction fuel generalizing cur with
  | zero => rfl
  | succ f ih =>
    unfold slotsFromFuel
    by_cases hc : cur ≤ close
    · rw [if_pos (by omega), if_pos hc]
      have : D + cur + step = D + (cur + step) := by omega
      rw [this, ih (cur + step)]
      rfl
    · rw [if_neg (by omega), if_neg hc]
      rfl

theorem renderSlot_shift (k t : Nat) : renderSlot (k * 1440 + t) = renderSlot t := by
  unfold renderSlot
  have h1 : (k * 1440 + t) / 60 % 24 = t / 60 % 24 := by omega
  have h2 : (k * 1440 + t) % 60 = t % 60 := by omega
  rw [h1, h2]

theorem slotsFrom_shift (D close step cur : Nat) :
    slotsFrom (D + close) step (D + cur) = (slotsFrom close step cur).map (D + ·) := by
  unfold slotsFrom
  split_ifs with hs
  · have : D + close + 1 - (D + cur) = close + 1 - cur := by omega
    rw [this]
    exact slotsFromFuel_shift D _ close step cur
  · rfl

theorem generateTimeSlots_today_eq_zero (today : Nat) (topen tclose : String) (step : Nat) :
    generateTimeSlots today topen tclose step = generateTimeSlots 0 topen tclose step := by
  unfold generateTimeSlots
  cases hpo : parseClock topen with
  | none => rfl
  | some p =>
    cases hpc : parseClock tclose with
    | none => cases p; rfl
    | some q =>
      cases p with
      | mk oh om =>
        cases q with
        | mk ch cm =>
          show (slotsFrom (today * 1440 + (ch * 60 + cm)) step
              (today * 1440 + (oh * 60 + om))).map renderSlot =
            (slotsFrom (0 * 1440 + (ch * 60 + cm)) step (0 * 1440 + (oh * 60 + om))).map renderSlot
          rw [slotsFrom_shift, List.map_map, Nat.zero_mul, Nat.zero_add, Nat.zero_add]
          exact List.map_congr_left fun t _ => renderSlot_shift today t

/-- C9: generateTimeSlots depends only on its open, close and step
inputs — the ambient calendar day that new Date() supplies has no
influence on the emitted sequence, so evaluations at different dates
agree (the model has no other side effects or ambient state). -/
theorem generateTimeSlots_pure_of_inputs (today1 today2 : Nat) (topen tclose : String)
    (step : Nat) :
    generateTimeSlots today1 topen tclose step = generateTimeSlots today2 topen tclose step := by
  rw [generateTimeSlots_today_eq_zero today1, generateTimeSlots_today_eq_zero today2]

/-- C8: for canonical HH:MM open/close with open at or before close and
a positive step, the generated sequence starts at open, is strictly
increasing in clock value, consists of canonical renderings of clock
values between open and close (so none exceeds close), and contains
close itself whenever close lies on the step grid based at open. -/
theorem generateTimeSlots_increasing_spec (today : Nat) (topen tclose : String)
    (oh om ch cm step : Nat)
    (hpo : parseClock topen = some (oh, om)) (hpc : parseClock tclose = some (ch, cm))
    (hoh : oh < 24) (hom : om < 60) (hch : ch < 24) (hcm : cm < 60)
    (hle : oh * 60 + om ≤ ch * 60 + cm) (hstep : 0 < step)
    (hoc : topen = renderSlot (oh * 60 + om)) :
    (generateTimeSlots today topen tclose step).head? = some topen ∧
    List.Pairwise (fun a b => timeVal a < timeVal b)
      (generateTimeSlots today topen tclose step) ∧
    (∀ sl ∈ generateTimeSlots today topen tclose step,
      oh * 60 + om ≤ timeVal sl ∧ timeVal sl ≤ ch * 60 + cm ∧ sl = renderSlot (timeVal sl)) ∧
    (step ∣ ch * 60 + cm - (oh * 60 + om) → tclose = renderSlot (ch * 60 + cm) →
      tclose ∈ generateTimeSlots today topen tclose step) := by
  rw [generateTimeSlots_today_eq_zero]
  have hgen : generateTimeSlots 0 topen tclose step =
      (slotsFromFuel (ch * 60 + cm + 1 - (oh * 60 + om)) (ch * 60 + cm) step
        (oh * 60 + om)).map renderSlot := by
    unfold generateTimeSlots
    rw [hpo, hpc]
    show (slotsFrom (0 * 1440 + (ch * 60 + cm)) step (0 * 1440 + (oh * 60 + om))).map
        renderSlot = _
    rw [Nat.zero_mul, Nat.zero_add, Nat.zero_add]
    unfold slotsFrom
    rw [if_pos hstep]
  rw [hgen]
  have hC : ch * 60 + cm < 1440 := by omega
  have hmem : ∀ t ∈ slotsFromFuel (ch * 60 + cm + 1 - (oh * 60 + om)) (ch * 60 + cm) step
      (oh * 60 + om), oh * 60 + om ≤ t ∧ t ≤ ch * 60 + cm :=
    fun t ht => slotsFromFuel_mem ht
  refine ⟨?_, ?_, ?_, ?_⟩
  · rw [List.head?_map,
      slotsFromFuel_head (ch * 60 + cm + 1 - (oh * 60 + om)) (ch * 60 + cm) step
        (oh * 60 + om) (by omega) hle, hoc]
    rfl
  · rw [List.pairwise_map]
    refine List.Pairwise.imp_of_mem ?_
      (slotsFromFuel_pairwise (ch * 60 + cm + 1 - (oh * 60 + om)) (ch * 60 + cm) step
        (oh * 60 + om) hstep)
    intro a b ha hb hab
    have hba := hmem a ha
    have hbb := hmem b hb
    rw [timeVal_renderSlot a (by omega), timeVal_renderSlot b (by omega)]
    exact hab
  · intro sl hsl
    rw [List.mem_map] at hsl
    obtain ⟨t, ht, rfl⟩ := hsl
    have hb := hmem t ht
    rw [timeVal_renderSlot t (by omega)]
    exact ⟨hb.1, hb.2, rfl⟩
  · intro hdvd hcc
    rw [hcc, List.mem_map]
    exact ⟨ch * 60 + cm,
      slotsFromFuel_close_mem _ hstep hle (Nat.le_refl _) hdvd, rfl⟩

/-- Witness for C8 at the restaurant's own defaults truncated to one
and a half hours: 11:00 to 12:30 with a 30-minute step, where 12:30
lies on the grid and is included. -/
theorem generateTimeSlots_increasing_spec_witness :
    parseClock "11:00" = some (11, 0) ∧ parseClock "12:30" = some (12, 30) ∧
    "12:30" ∈ generateTimeSlots 0 "11:00" "12:30" 30 :=
  ⟨by decide, by decide,
    (generateTimeSlots_increasing_spec 0 "11:00" "12:30" 11 0 12 30 30 (by decide) (by decide)
      (by decide) (by decide) (by decide) (by decide) (by decide) (by decide)
      (by decide)).2.2.2 (by decide) (by decide)⟩

end LittleLemon
